import Mathlib

/-!
Verification development for the single-user Telegram language-training bot
(`bot.py`).  The per-chat session state machine, the owner-only access
guard, the backend-reply normalization (Python `strip`/`lstrip`/`rstrip`)
and the JSON parsing of training-mode replies are embedded shallowly below;
network interaction with the language-model backend and with the messaging
platform is represented by an explicit environment (`Env`): the backend
reply for the current turn is an environment input, and platform sends are
modelled as an output list.
-/

namespace EBot

/-! ### Mode and state constants (bot.py lines 90-95) -/

def MODE_TRAINING : String := "mode_training"

def MODE_ENGLISH_ONLY : String := "mode_english_only"

def MODE_EXPLAIN : String := "mode_explain"

def STATE_AWAITING_PHRASE : Nat := 1

def STATE_AWAITING_REVEAL : Nat := 2

/-! ### JSON values and parser, modelling Python json.loads

Values are an inductive tree; number literals keep their lexeme (the bot
never computes with numeric values, so float conversion is not modelled).
The parser is fuel-based recursive descent over the JSON grammar accepted
by json.loads (strict mode: raw control characters inside strings are
rejected; NaN and the infinities are accepted as number constants, as
Python does by default). -/

inductive JVal where
  | null : JVal
  | bool (b : Bool) : JVal
  | num (lit : String) : JVal
  | str (s : String) : JVal
  | arr (xs : List JVal) : JVal
  | obj (kvs : List (String × JVal)) : JVal

def jsonWS (c : Char) : Bool :=
  c == ' ' || c == '\t' || c == '\n' || c == '\r'

def skipWs (cs : List Char) : List Char := cs.dropWhile jsonWS

def hexVal (c : Char) : Option Nat :=
  if '0' ≤ c ∧ c ≤ '9' then some (c.toNat - '0'.toNat)
  else if 'a' ≤ c ∧ c ≤ 'f' then some (c.toNat - 'a'.toNat + 10)
  else if 'A' ≤ c ∧ c ≤ 'F' then some (c.toNat - 'A'.toNat + 10)
  else none

/-- Parse the body of a JSON string after the opening quote, handling the
escape sequences json.loads accepts; surrogate-pair combination is not
modelled (a lone escape yields the raw code point when it is a valid
scalar value, and the null character otherwise, via Char.ofNat). -/
def parseStrAux : Nat → List Char → List Char → Option (String × List Char)
  | 0, _, _ => none
  | fuel + 1, acc, cs =>
    match cs with
    | [] => none
    | '"' :: rest => some (String.mk acc.reverse, rest)
    | '\\' :: e :: rest =>
      match e with
      | '"' => parseStrAux fuel ('"' :: acc) rest
      | '\\' => parseStrAux fuel ('\\' :: acc) rest
      | '/' => parseStrAux fuel ('/' :: acc) rest
      | 'b' => parseStrAux fuel ('\x08' :: acc) rest
      | 'f' => parseStrAux fuel ('\x0c' :: acc) rest
      | 'n' => parseStrAux fuel ('\n' :: acc) rest
      | 'r' => parseStrAux fuel ('\r' :: acc) rest
      | 't' => parseStrAux fuel ('\t' :: acc) rest
      | 'u' =>
        match rest with
        | h1 :: h2 :: h3 :: h4 :: rest2 =>
          match hexVal h1, hexVal h2, hexVal h3, hexVal h4 with
          | some a, some b, some c, some d =>
            parseStrAux fuel (Char.ofNat (((a * 16 + b) * 16 + c) * 16 + d) :: acc) rest2
          | _, _, _, _ => none
        | _ => none
      | _ => none
    | c :: rest =>
      if c.toNat < 32 then none else parseStrAux fuel (c :: acc) rest

def isDigitCh (c : Char) : Bool := '0' ≤ c && c ≤ '9'

/-- Lex the optional fraction part of a JSON number: a dot must be
followed by at least one digit. -/
def parseFrac : List Char → Option (List Char × List Char)
  | '.' :: r2 =>
    let ds := r2.takeWhile isDigitCh
    if ds.isEmpty then none else some ('.' :: ds, r2.dropWhile isDigitCh)
  | cs => some ([], cs)

/-- Lex the optional exponent part of a JSON number: e or E, an optional
sign, then at least one digit. -/
def parseExp : List Char → Option (List Char × List Char)
  | e :: r3 =>
    if e = 'e' ∨ e = 'E' then
      let (es, r4) : List Char × List Char :=
        match r3 with
        | s :: r5 => if s = '+' ∨ s = '-' then ([s], r5) else ([], r3)
        | [] => ([], r3)
      let ds := r4.takeWhile isDigitCh
      if ds.isEmpty then none else some (e :: (es ++ ds), r4.dropWhile isDigitCh)
    else some ([], e :: r3)
  | [] => some ([], [])

/-- Lex a JSON number (or one of the constants NaN, Infinity, -Infinity
accepted by json.loads), returning the lexeme and the rest. -/
def parseNum (cs : List Char) : Option (String × List Char) :=
  match cs with
  | 'N' :: 'a' :: 'N' :: rest => some ("NaN", rest)
  | 'I' :: 'n' :: 'f' :: 'i' :: 'n' :: 'i' :: 't' :: 'y' :: rest => some ("Infinity", rest)
  | '-' :: 'I' :: 'n' :: 'f' :: 'i' :: 'n' :: 'i' :: 't' :: 'y' :: rest =>
    some ("-Infinity", rest)
  | _ =>
    let (sign, cs1) : List Char × List Char :=
      match cs with
      | '-' :: r => (['-'], r)
      | _ => ([], cs)
    match cs1 with
    | c :: r =>
      if isDigitCh c then
        let (intPart, rest1) : List Char × List Char :=
          if c = '0' then ([c], r)
          else (c :: r.takeWhile isDigitCh, r.dropWhile isDigitCh)
        match parseFrac rest1 with
        | none => none
        | some (fracPart, rest2) =>
          match parseExp rest2 with
          | none => none
          | some (expPart, rest3) =>
            some (String.mk (sign ++ (intPart ++ (fracPart ++ expPart))), rest3)
      else none
    | [] => none

mutual

/-- Parse one JSON value (after skipping leading whitespace). -/
def parseVal : Nat → List Char → Option (JVal × List Char)
  | 0, _ => none
  | fuel + 1, cs =>
    match skipWs cs with
    | '{' :: rest => parseObj fuel (skipWs rest)
    | '[' :: rest => parseArr fuel (skipWs rest)
    | '"' :: rest =>
      match parseStrAux (rest.length + 1) [] rest with
      | some (s, r) => some (JVal.str s, r)
      | none => none
    | 't' :: 'r' :: 'u' :: 'e' :: rest => some (JVal.bool true, rest)
    | 'f' :: 'a' :: 'l' :: 's' :: 'e' :: rest => some (JVal.bool false, rest)
    | 'n' :: 'u' :: 'l' :: 'l' :: rest => some (JVal.null, rest)
    | rest =>
      match parseNum rest with
      | some (s, r) => some (JVal.num s, r)
      | none => none

/-- Parse an object body, whitespace before the first token already
skipped; the opening brace is already consumed. -/
def parseObj : Nat → List Char → Option (JVal × List Char)
  | 0, _ => none
  | fuel + 1, cs =>
    match cs with
    | '}' :: rest => some (JVal.obj [], rest)
    | _ =>
      match parseMembers fuel cs with
      | some (kvs, rest) => some (JVal.obj kvs, rest)
      | none => none

/-- Parse one or more comma-separated key-value pairs followed by the
closing brace. -/
def parseMembers : Nat → List Char → Option (List (String × JVal) × List Char)
  | 0, _ => none
  | fuel + 1, cs =>
    match cs with
    | '"' :: rest =>
      match parseStrAux (rest.length + 1) [] rest with
      | none => none
      | some (k, r1) =>
        match skipWs r1 with
        | ':' :: r2 =>
          match parseVal fuel r2 with
          | none => none
          | some (v, r3) =>
            match skipWs r3 with
            | ',' :: r4 =>
              match parseMembers fuel (skipWs r4) with
              | none => none
              | some (kvs, r5) => some ((k, v) :: kvs, r5)
            | '}' :: r4 => some ([(k, v)], r4)
            | _ => none
        | _ => none
    | _ => none

/-- Parse an array body, whitespace before the first token already
skipped; the opening bracket is already consumed. -/
def parseArr : Nat → List Char → Option (JVal × List Char)
  | 0, _ => none
  | fuel + 1, cs =>
    match cs with
    | ']' :: rest => some (JVal.arr [], rest)
    | _ =>
      match parseElems fuel cs with
      | some (xs, rest) => some (JVal.arr xs, rest)
      | none => none

/-- Parse one or more comma-separated array elements followed by the
closing bracket. -/
def parseElems : Nat → List Char → Option (List JVal × List Char)
  | 0, _ => none
  | fuel + 1, cs =>
    match parseVal fuel cs with
    | none => none
    | some (v, r1) =>
      match skipWs r1 with
      | ',' :: r2 =>
        match parseElems fuel r2 with
        | none => none
        | some (xs, r3) => some (v :: xs, r3)
      | ']' :: r2 => some ([v], r2)
      | _ => none

end

/-- json.loads on a character list: parse one value, demand only trailing
whitespace after it. -/
def jsonLoadsList (l : List Char) : Option JVal :=
  match parseVal (2 * l.length + 4) l with
  | some (v, rest) => if (skipWs rest).isEmpty then some v else none
  | none => none

/-- json.loads on a string. -/
def jsonLoads (s : String) : Option JVal := jsonLoadsList s.data

/-- Python dict indexing after json.loads: duplicate keys are resolved by
the last occurrence; indexing anything but an object fails (TypeError). -/
def getKey (v : JVal) (k : String) : Option JVal :=
  match v with
  | JVal.obj kvs => ((kvs.filter (fun p => p.1 = k)).getLast?).map Prod.snd
  | _ => none

/-- Python truthiness of a JSON value (bool() of the decoded object).  For
number literals the lexeme is inspected: a literal denoting zero is falsy;
denormal underflow of tiny nonzero literals is not modelled. -/
def pyTruthy (v : JVal) : Bool :=
  match v with
  | JVal.null => false
  | JVal.bool b => b
  | JVal.str s => !s.isEmpty
  | JVal.num lit => !(lit.data.all (fun c => "-+0.eE".data.contains c))
  | JVal.arr xs => !xs.isEmpty
  | JVal.obj kvs => !kvs.isEmpty

/-! ### Python string stripping (bot.py line 176)

The cleanup is response_text.strip().lstrip("\x60\x60\x60json").rstrip("\x60\x60\x60").strip().
Python str.lstrip / str.rstrip with an argument remove the longest run of
characters BELONGING TO THE GIVEN SET from the respective end (not the
literal prefix/suffix), and str.strip() with no argument removes
whitespace from both ends. -/

def pyWS (c : Char) : Bool :=
  c == ' ' || c == '\t' || c == '\n' || c == '\r' || c == '\x0b' || c == '\x0c'

/-- Remove trailing characters satisfying p (right-side dropWhile). -/
def rdropW (p : Char → Bool) (l : List Char) : List Char :=
  (l.reverse.dropWhile p).reverse

def inSet (S : List Char) (c : Char) : Bool := S.contains c

/-- The character set of lstrip("\x60\x60\x60json"). -/
def fenceOpenSet : List Char := "\x60\x60\x60json".data

/-- The character set of rstrip("\x60\x60\x60"). -/
def fenceCloseSet : List Char := "\x60\x60\x60".data

def lstripWS (l : List Char) : List Char := l.dropWhile pyWS

def rstripWS (l : List Char) : List Char := rdropW pyWS l

/-- Python s.strip() with no argument. -/
def stripWS (l : List Char) : List Char := rstripWS (lstripWS l)

/-- The whole normalization applied to the backend reply before
json.loads in Training mode (bot.py line 176). -/
def pyCleanList (l : List Char) : List Char :=
  stripWS (rdropW (inSet fenceCloseSet) ((stripWS l).dropWhile (inSet fenceOpenSet)))

def pyClean (s : String) : String := String.mk (pyCleanList s.data)

/-! ### Sessions, configuration, environment, events, outputs -/

/-- The per-chat context.chat_data dictionary, restricted to the three
keys the program uses; a missing key is None. -/
structure Session where
  mode : Option String
  state : Option Nat
  english_text : Option JVal

/-- chat_data before /start, and after chat_data.clear(). -/
def emptySession : Session := ⟨none, none, none⟩

inductive Provider where
  | GEMINI | GIGACHAT | DEEPSEEK
deriving DecidableEq

def providerName : Provider → String
  | Provider.GEMINI => "GEMINI"
  | Provider.GIGACHAT => "GIGACHAT"
  | Provider.DEEPSEEK => "DEEPSEEK"

/-- Startup configuration: the owner identifier (TELEGRAM_OWNER_ID) and
the backend selected by LLM_PROVIDER. -/
structure Config where
  ownerId : Int
  provider : Provider
deriving DecidableEq

/-- Per-turn environment: the outcome of the generate_llm_response call
(Except.error for a raised exception such as an unreachable backend), and
whether the platform accepts the MarkdownV2 markup of the current reply
(false models the BadRequest "cannot parse entities" rejection). -/
structure Env where
  gen : Except Unit String
  markupOk : Bool

inductive ParseMode where
  | plain | markdownV2
deriving DecidableEq

/-- One outbound message: its text (a decoded value, since the stash can
hold any JSON value), its parse mode, and whether it was delivered via
edit_message_text rather than send_message. -/
structure OutMsg where
  text : JVal
  pm : ParseMode
  edit : Bool

inductive LogLvl where
  | warning | error
deriving DecidableEq

/-- A plain-text send_message. -/
def sendP (v : JVal) : OutMsg := ⟨v, ParseMode.plain, false⟩

/-- A MarkdownV2 send_message. -/
def sendMd (v : JVal) : OutMsg := ⟨v, ParseMode.markdownV2, false⟩

/-- An edit_message_text. -/
def editP (t : String) : OutMsg := ⟨JVal.str t, ParseMode.plain, true⟩

/-- The inbound events the dispatcher handles: /start, /mode, a callback
button press carrying its payload, and a non-command text message. -/
inductive Event where
  | start
  | modeCmd
  | button (payload : String)
  | message (text : String)
deriving DecidableEq

/-- Result of processing one inbound event: the new session, the
messages delivered to the chat, and the log records emitted. -/
structure StepRes where
  session : Session
  out : List OutMsg
  logs : List LogLvl

/-! ### The handlers (bot.py lines 109-260) -/

/-- The common error result of handle_phrase_and_return_russian's except
branch: chat_data.clear() plus the generic message (bot.py lines 184-187). -/
def trainingErrorRes : StepRes :=
  ⟨emptySession, [sendP (JVal.str "An error occurred. Let\x27s start over.")], [LogLvl.error]⟩

/-- bot.py lines 162-187: generate, normalize, json.loads, stash
data["english"], send data["russian"], move to AwaitingReveal; any
exception clears chat_data and reports the generic error.  The english
key is read before the russian key, as in the source. -/
def handle_phrase_and_return_russian (env : Env) (s : Session) : StepRes :=
  match env.gen with
  | Except.error _ => trainingErrorRes
  | Except.ok reply =>
    match jsonLoads (pyClean reply) with
    | none => trainingErrorRes
    | some data =>
      match getKey data "english" with
      | none => trainingErrorRes
      | some e =>
        match getKey data "russian" with
        | none => trainingErrorRes
        | some r =>
          ⟨⟨s.mode, some STATE_AWAITING_REVEAL, some e⟩,
           [sendP r, sendP (JVal.str "Now, send any message to get the English version.")],
           []⟩

/-- bot.py lines 190-199: send the stash when it is truthy, go back to
AwaitingPhrase; the stash itself is left in chat_data. -/
def handle_reveal_english (s : Session) : StepRes :=
  let first : List OutMsg :=
    match s.english_text with
    | some v => if pyTruthy v then [sendP v] else []
    | none => []
  ⟨⟨s.mode, some STATE_AWAITING_PHRASE, s.english_text⟩,
   first ++ [sendP (JVal.str "Let\x27s start over. Send me a new phrase.")],
   []⟩

/-- bot.py lines 202-220: send the generated text verbatim; on exception
inform the user without touching chat_data. -/
def handle_english_only_generation (env : Env) (s : Session) : StepRes :=
  match env.gen with
  | Except.error _ =>
    ⟨s, [sendP (JVal.str "An error occurred. Please try again.")], [LogLvl.error]⟩
  | Except.ok reply =>
    ⟨s, [sendP (JVal.str reply), sendP (JVal.str "Send me another phrase.")], []⟩

/-- bot.py lines 223-260: send the generated text as MarkdownV2; if the
platform rejects the markup, resend the same text plain (a warning, not
an error); on any other exception inform the user without touching
chat_data. -/
def handle_explain_mode (env : Env) (s : Session) : StepRes :=
  match env.gen with
  | Except.error _ =>
    ⟨s, [sendP (JVal.str "An error occurred. Please try again.")], [LogLvl.error]⟩
  | Except.ok reply =>
    if env.markupOk then
      ⟨s, [sendMd (JVal.str reply),
           sendP (JVal.str "Send me another word or phrase to explain.")], []⟩
    else
      ⟨s, [sendP (JVal.str reply),
           sendP (JVal.str "Send me another word or phrase to explain.")], [LogLvl.warning]⟩

/-- bot.py lines 146-159: dispatch on chat_data mode/state with their
.get defaults; an unknown mode or state falls through every branch and
does nothing. -/
def handle_message (env : Env) (s : Session) : StepRes :=
  let mode := s.mode.getD MODE_TRAINING
  let st := s.state.getD STATE_AWAITING_PHRASE
  if mode = MODE_TRAINING then
    if st = STATE_AWAITING_PHRASE then handle_phrase_and_return_russian env s
    else if st = STATE_AWAITING_REVEAL then handle_reveal_english s
    else ⟨s, [], []⟩
  else if mode = MODE_ENGLISH_ONLY then handle_english_only_generation env s
  else if mode = MODE_EXPLAIN then handle_explain_mode env s
  else ⟨s, [], []⟩

/-- bot.py lines 135-142: the callback handler stores the raw payload as
the mode and forces AwaitingPhrase; it is registered WITHOUT the
owner_only decorator and it does not remove the english_text key. -/
def button_callback (payload : String) (s : Session) : StepRes :=
  ⟨⟨some payload, some STATE_AWAITING_PHRASE, s.english_text⟩,
   [editP ("Mode set to: " ++ payload ++ ".\nSend me a word or phrase.")],
   []⟩

/-- bot.py lines 109-121: chat_data.clear(), default mode, AwaitingPhrase,
and the welcome message (which interpolates LLM_PROVIDER and the mode,
always mode_training right after the clear). -/
def start (cfg : Config) : StepRes :=
  ⟨⟨some MODE_TRAINING, some STATE_AWAITING_PHRASE, none⟩,
   [sendP (JVal.str ("Welcome, owner! LLM: " ++ providerName cfg.provider ++
      ". Current mode: \x27" ++ MODE_TRAINING ++ "\x27.\nSend me a phrase to begin or use /mode to change it."))],
   []⟩

/-- The owner_only guard (bot.py lines 98-106): a mismatching sender gets
only a warning log. -/
def droppedRes (s : Session) : StepRes := ⟨s, [], [LogLvl.warning]⟩

/-- One inbound update through the registered handlers (bot.py lines
266-269).  start, mode_command and handle_message are wrapped in
owner_only; button_callback is registered unguarded. -/
def step (cfg : Config) (env : Env) (sender : Int) (ev : Event) (s : Session) : StepRes :=
  match ev with
  | Event.start =>
    if sender ≠ cfg.ownerId then droppedRes s else start cfg
  | Event.modeCmd =>
    if sender ≠ cfg.ownerId then droppedRes s
    else ⟨s, [sendP (JVal.str "Please choose a mode:")], []⟩
  | Event.button payload => button_callback payload s
  | Event.message _ =>
    if sender ≠ cfg.ownerId then droppedRes s else handle_message env s

/-- Sessions reachable from the initial empty chat_data by any sequence
of inbound events, under any configuration and any environment. -/
inductive Reachable : Session → Prop where
  | init : Reachable emptySession
  | step (cfg : Config) (env : Env) (sender : Int) (ev : Event) (s : Session) :
      Reachable s → Reachable (step cfg env sender ev s).session

/-! ### dropWhile facts used for the normalization proof -/

theorem dropWhile_append_of_all {p : Char → Bool} {a b : List Char}
    (h : ∀ c ∈ a, p c = true) :
    List.dropWhile p (a ++ b) = List.dropWhile p b := by
  induction a with
  | nil => rfl
  | cons x t ih =>
    rw [List.cons_append, List.dropWhile_cons_of_pos (h x (by simp))]
    exact ih (fun c hc => h c (by simp [hc]))

theorem dropWhile_all_pos {p : Char → Bool} {a : List Char}
    (h : ∀ c ∈ a, p c = true) : List.dropWhile p a = [] := by
  have := dropWhile_append_of_all (b := []) h
  simpa using this

theorem dropWhile_all_neg {p : Char → Bool} {a : List Char}
    (h : ∀ c ∈ a, p c = false) : List.dropWhile p a = a := by
  cases a with
  | nil => rfl
  | cons x t => exact List.dropWhile_cons_of_neg (by simp [h x (by simp)])

theorem splitL (p : Char → Bool) {x : Char} (hx : p x = false) (L R : List Char) :
    List.dropWhile p (L ++ x :: R) = List.dropWhile p L ++ x :: R := by
  induction L with
  | nil =>
    have hx2 : ¬ p x = true := by simp [hx]
    simp [List.dropWhile_cons_of_neg hx2]
  | cons a t ih =>
    by_cases h : p a
    · simp only [List.cons_append, List.dropWhile_cons_of_pos h, ih]
    · simp only [List.cons_append, List.dropWhile_cons_of_neg h]

theorem splitR (p : Char → Bool) {y : Char} (hy : p y = false) (A R : List Char) :
    rdropW p (A ++ y :: R) = A ++ y :: rdropW p R := by
  unfold rdropW
  rw [show (A ++ y :: R).reverse = R.reverse ++ y :: A.reverse by simp]
  rw [splitL p hy]
  simp

theorem rdropW_append_of_all {p : Char → Bool} {a b : List Char}
    (h : ∀ c ∈ b, p c = true) :
    rdropW p (a ++ b) = rdropW p a := by
  unfold rdropW
  rw [List.reverse_append, dropWhile_append_of_all (fun c hc => h c (List.mem_reverse.mp hc))]

theorem rdropW_all_pos {p : Char → Bool} {a : List Char}
    (h : ∀ c ∈ a, p c = true) : rdropW p a = [] := by
  unfold rdropW
  rw [dropWhile_all_pos (fun c hc => h c (List.mem_reverse.mp hc))]
  rfl

theorem rdropW_all_neg {p : Char → Bool} {a : List Char}
    (h : ∀ c ∈ a, p c = false) : rdropW p a = a := by
  unfold rdropW
  rw [dropWhile_all_neg (fun c hc => h c (List.mem_reverse.mp hc))]
  exact List.reverse_reverse a

theorem mem_append_all {p : Char → Bool} {a b : List Char}
    (ha : ∀ c ∈ a, p c = true) (hb : ∀ c ∈ b, p c = true) :
    ∀ c ∈ a ++ b, p c = true := by
  intro c hc
  rcases List.mem_append.mp hc with h | h
  · exact ha c h
  · exact hb c h

/-! ### Character-class facts -/

theorem pyWS_lbrace : pyWS '{' = false := by decide

theorem pyWS_rbrace : pyWS '}' = false := by decide

theorem pyWS_tick : pyWS '\x60' = false := by decide

theorem openSet_lbrace : inSet fenceOpenSet '{' = false := by decide

theorem closeSet_rbrace : inSet fenceCloseSet '}' = false := by decide

theorem ws_not_in_open : ∀ c, pyWS c = true → inSet fenceOpenSet c = false := by
  intro c h
  simp only [pyWS, Bool.or_eq_true, beq_iff_eq] at h
  rcases h with ((((h | h) | h) | h) | h) | h <;> subst h <;> decide

theorem ws_not_in_close : ∀ c, pyWS c = true → inSet fenceCloseSet c = false := by
  intro c h
  simp only [pyWS, Bool.or_eq_true, beq_iff_eq] at h
  rcases h with ((((h | h) | h) | h) | h) | h <;> subst h <;> decide

/-- Core normalization fact: the Python strip pipeline of bot.py line 176
removes the given prefix and suffix around a brace-delimited middle,
provided the residues of each stripping stage are as hypothesized. -/
theorem pyCleanList_master (Lpre Rsuf mid L1 L3 R2 R4 : List Char)
    (hL1 : List.dropWhile pyWS Lpre = L1)
    (hL3 : List.dropWhile (inSet fenceOpenSet) L1 = L3)
    (hL5 : List.dropWhile pyWS L3 = [])
    (hR2 : rdropW pyWS Rsuf = R2)
    (hR4 : rdropW (inSet fenceCloseSet) R2 = R4)
    (hR6 : rdropW pyWS R4 = []) :
    pyCleanList (Lpre ++ '{' :: (mid ++ '}' :: Rsuf)) = '{' :: (mid ++ ['}']) := by
  unfold pyCleanList stripWS lstripWS rstripWS
  rw [splitL pyWS pyWS_lbrace, hL1]
  rw [show L1 ++ '{' :: (mid ++ '}' :: Rsuf) = (L1 ++ '{' :: mid) ++ '}' :: Rsuf by simp]
  rw [splitR pyWS pyWS_rbrace, hR2]
  rw [show (L1 ++ '{' :: mid) ++ '}' :: R2 = L1 ++ '{' :: (mid ++ '}' :: R2) by simp]
  rw [splitL (inSet fenceOpenSet) openSet_lbrace, hL3]
  rw [show L3 ++ '{' :: (mid ++ '}' :: R2) = (L3 ++ '{' :: mid) ++ '}' :: R2 by simp]
  rw [splitR (inSet fenceCloseSet) closeSet_rbrace, hR4]
  rw [show (L3 ++ '{' :: mid) ++ '}' :: R4 = L3 ++ '{' :: (mid ++ '}' :: R4) by simp]
  rw [splitL pyWS pyWS_lbrace, hL5]
  rw [show ([] : List Char) ++ '{' :: (mid ++ '}' :: R4) = ('{' :: mid) ++ '}' :: R4 by simp]
  rw [splitR pyWS pyWS_rbrace, hR6]
  simp

/-- Stripping a (possibly fenced) JSON object text: any combination of an
optional opening fence token (with or without the json tag), an optional
closing fence token, and whitespace runs around them is removed, leaving
exactly the brace-delimited middle. -/
theorem pyCleanList_fenced (ws1 ws2 ws3 ws4 mid f1 f2 : List Char)
    (h1 : ∀ c ∈ ws1, pyWS c = true) (h2 : ∀ c ∈ ws2, pyWS c = true)
    (h3 : ∀ c ∈ ws3, pyWS c = true) (h4 : ∀ c ∈ ws4, pyWS c = true)
    (hf1 : f1 = [] ∨ f1 = "\x60\x60\x60".data ∨ f1 = "\x60\x60\x60json".data)
    (hf2 : f2 = [] ∨ f2 = "\x60\x60\x60".data) :
    pyCleanList ((ws1 ++ f1 ++ ws3) ++ '{' :: (mid ++ '}' :: (ws4 ++ f2 ++ ws2))) =
      '{' :: (mid ++ ['}']) := by
  have hR2e : f2 = [] → rdropW pyWS (ws4 ++ f2 ++ ws2) = [] := by
    intro h; subst h
    exact rdropW_all_pos (by simpa using mem_append_all h4 h2)
  have hR2f : f2 = "\x60\x60\x60".data →
      rdropW pyWS (ws4 ++ f2 ++ ws2) = ws4 ++ f2 := by
    intro h; subst h
    rw [rdropW_append_of_all h2]
    rw [show ws4 ++ "\x60\x60\x60".data = (ws4 ++ ['\x60', '\x60']) ++ '\x60' :: [] by simp]
    rw [splitR pyWS pyWS_tick]
    simp [rdropW]
  have hR4f : rdropW (inSet fenceCloseSet) (ws4 ++ "\x60\x60\x60".data) = ws4 := by
    rw [rdropW_append_of_all (by decide)]
    exact rdropW_all_neg (fun c hc => ws_not_in_close c (h4 c hc))
  rcases hf1 with hf1 | hf1 | hf1 <;> rcases hf2 with hf2 | hf2 <;> subst hf1 <;> subst hf2
  · exact pyCleanList_master _ _ _ [] [] [] []
      (dropWhile_all_pos (by simpa using mem_append_all h1 h3)) rfl rfl
      (hR2e rfl) rfl rfl
  · exact pyCleanList_master _ _ _ [] [] (ws4 ++ "\x60\x60\x60".data) ws4
      (dropWhile_all_pos (by simpa using mem_append_all h1 h3)) rfl rfl
      (hR2f rfl) hR4f (rdropW_all_pos h4)
  · refine pyCleanList_master _ _ _ ("\x60\x60\x60".data ++ ws3) ws3 [] []
      ?_ ?_ (dropWhile_all_pos h3) (hR2e rfl) rfl rfl
    · rw [show ws1 ++ "\x60\x60\x60".data ++ ws3 = ws1 ++ ("\x60\x60\x60".data ++ ws3) by simp]
      rw [dropWhile_append_of_all h1]
      rfl
    · rw [dropWhile_append_of_all (by decide)]
      exact dropWhile_all_neg (fun c hc => ws_not_in_open c (h3 c hc))
  · refine pyCleanList_master _ _ _ ("\x60\x60\x60".data ++ ws3) ws3
      (ws4 ++ "\x60\x60\x60".data) ws4
      ?_ ?_ (dropWhile_all_pos h3) (hR2f rfl) hR4f (rdropW_all_pos h4)
    · rw [show ws1 ++ "\x60\x60\x60".data ++ ws3 = ws1 ++ ("\x60\x60\x60".data ++ ws3) by simp]
      rw [dropWhile_append_of_all h1]
      rfl
    · rw [dropWhile_append_of_all (by decide)]
      exact dropWhile_all_neg (fun c hc => ws_not_in_open c (h3 c hc))
  · refine pyCleanList_master _ _ _ ("\x60\x60\x60json".data ++ ws3) ws3 [] []
      ?_ ?_ (dropWhile_all_pos h3) (hR2e rfl) rfl rfl
    · rw [show ws1 ++ "\x60\x60\x60json".data ++ ws3 = ws1 ++ ("\x60\x60\x60json".data ++ ws3) by simp]
      rw [dropWhile_append_of_all h1]
      rfl
    · rw [dropWhile_append_of_all (by decide)]
      exact dropWhile_all_neg (fun c hc => ws_not_in_open c (h3 c hc))
  · refine pyCleanList_master _ _ _ ("\x60\x60\x60json".data ++ ws3) ws3
      (ws4 ++ "\x60\x60\x60".data) ws4
      ?_ ?_ (dropWhile_all_pos h3) (hR2f rfl) hR4f (rdropW_all_pos h4)
    · rw [show ws1 ++ "\x60\x60\x60json".data ++ ws3 = ws1 ++ ("\x60\x60\x60json".data ++ ws3) by simp]
      rw [dropWhile_append_of_all h1]
      rfl
    · rw [dropWhile_append_of_all (by decide)]
      exact dropWhile_all_neg (fun c hc => ws_not_in_open c (h3 c hc))

/-! ### Shared concrete fixtures for witnesses and counterexamples -/

/-- An environment whose generation call returns the given reply and
whose markup is accepted. -/
def envOf (reply : String) : Env := ⟨Except.ok reply, true⟩

/-- An environment whose generation call raises. -/
def envFail : Env := ⟨Except.error (), true⟩

/-- A sample configuration: owner 42, DEEPSEEK backend. -/
def cfg0 : Config := ⟨42, Provider.DEEPSEEK⟩

/-- A session in Training mode awaiting a phrase (the state right after
/start). -/
def sessTraining : Session := ⟨some MODE_TRAINING, some STATE_AWAITING_PHRASE, none⟩

/-- A session in Explain mode awaiting a phrase. -/
def sessExplain : Session := ⟨some MODE_EXPLAIN, some STATE_AWAITING_PHRASE, none⟩

/-! ### C1 - authorization -/

/-- C1 (amended): an inbound text message, /start or /mode whose sender
differs from the configured owner identifier produces no outbound message
and leaves the session unchanged; callback-button presses are NOT covered,
because button_callback is registered without the owner_only guard. -/
theorem unauthorized_event_silent (cfg : Config) (env : Env) (sender : Int)
    (ev : Event) (s : Session) (hs : sender ≠ cfg.ownerId)
    (hev : ∀ p, ev ≠ Event.button p) :
    (step cfg env sender ev s).session = s ∧ (step cfg env sender ev s).out = [] := by
  cases ev with
  | start => simp [step, droppedRes, hs]
  | modeCmd => simp [step, droppedRes, hs]
  | button p => exact absurd rfl (hev p)
  | message t => simp [step, droppedRes, hs]

/-- Witness for C1's amended theorem at a concrete unauthorized sender. -/
theorem unauthorized_event_silent_witness :
    (step cfg0 (envOf "x") 1 (Event.message "hi") emptySession).session = emptySession ∧
    (step cfg0 (envOf "x") 1 (Event.message "hi") emptySession).out = [] :=
  unauthorized_event_silent cfg0 (envOf "x") 1 (Event.message "hi") emptySession
    (by decide) (fun p h => Event.noConfusion h)

/-- C1 counterexample: a callback-button press from a sender other than
the owner still edits the menu message (an outbound message) and changes
the session mode, so the claim fails for callback events. -/
theorem unauthorized_button_not_dropped :
    (step cfg0 (envOf "x") 1 (Event.button MODE_EXPLAIN) emptySession).out ≠ [] ∧
    (step cfg0 (envOf "x") 1 (Event.button MODE_EXPLAIN) emptySession).session.mode ≠
      emptySession.mode := by
  constructor
  · simp [step, button_callback]
  · simp [step, button_callback, emptySession]

/-! ### C2 - mode selection -/

/-- C2 (amended): the callback-button handler sets the chosen mode and
resets state to AwaitingPhrase, but it does NOT clear the stashed English
text: english_text is carried over unchanged. -/
theorem button_sets_mode_resets_state (cfg : Config) (env : Env) (sender : Int)
    (payload : String) (s : Session) :
    step cfg env sender (Event.button payload) s =
      ⟨⟨some payload, some STATE_AWAITING_PHRASE, s.english_text⟩,
       [editP ("Mode set to: " ++ payload ++ ".\nSend me a word or phrase.")], []⟩ := rfl

/-- C2 counterexample: selecting a mode while a stash is set leaves the
stash in place, contradicting "clears the stashed English text". -/
theorem button_does_not_clear_stash :
    (step cfg0 (envOf "x") 42 (Event.button MODE_EXPLAIN)
       ⟨some MODE_TRAINING, some STATE_AWAITING_REVEAL, some (JVal.str "stash")⟩).session.english_text
      = some (JVal.str "stash") ∧
    (step cfg0 (envOf "x") 42 (Event.button MODE_EXPLAIN)
       ⟨some MODE_TRAINING, some STATE_AWAITING_REVEAL, some (JVal.str "stash")⟩).session.english_text
      ≠ none :=
  ⟨rfl, fun h => Option.noConfusion h⟩

/-! ### C8 - provider independence -/

/-- C8 (amended): for identical generation results, every event except
/start produces identical observable behavior under any two configured
providers; the /start welcome message embeds the provider name and is
excluded. -/
theorem provider_independent_behavior (p q : Provider) (o : Int) (env : Env)
    (sender : Int) (ev : Event) (s : Session) (hev : ev ≠ Event.start) :
    step ⟨o, p⟩ env sender ev s = step ⟨o, q⟩ env sender ev s := by
  cases ev with
  | start => exact absurd rfl hev
  | modeCmd => rfl
  | button pl => rfl
  | message t => rfl

/-- Witness for C8's amended theorem on a concrete message turn. -/
theorem provider_independent_behavior_witness :
    step ⟨42, Provider.GEMINI⟩ (envOf "x") 42 (Event.message "hi") sessTraining =
    step ⟨42, Provider.DEEPSEEK⟩ (envOf "x") 42 (Event.message "hi") sessTraining :=
  provider_independent_behavior Provider.GEMINI Provider.DEEPSEEK 42 (envOf "x") 42
    (Event.message "hi") sessTraining (fun h => Event.noConfusion h)

/-- C8 counterexample: the /start welcome message interpolates
LLM_PROVIDER, so the outbound text differs between providers even though
no generation result is involved. -/
theorem provider_visible_in_start :
    (step ⟨42, Provider.GEMINI⟩ (envOf "x") 42 Event.start emptySession).out ≠
    (step ⟨42, Provider.DEEPSEEK⟩ (envOf "x") 42 Event.start emptySession).out := by
  intro h
  have h2 := congrArg (List.map (fun m => match m.text with
    | JVal.str s => some s
    | _ => none)) h
  simp [step, start, providerName, sendP] at h2
  exact absurd h2 (by decide)

/-! ### C10 - unvalidated mode payload -/

/-- C10: button_callback stores the raw callback payload as the mode
without validation, and a session whose mode matches none of the three
known mode constants handles every text message by doing nothing: no
outbound message and an unchanged session. -/
theorem mode_payload_unvalidated (cfg : Config) (env env2 : Env)
    (sender sender2 : Int) (payload t : String) (s : Session) (m : String)
    (hm : s.mode = some m) (h1 : m ≠ MODE_TRAINING) (h2 : m ≠ MODE_ENGLISH_ONLY)
    (h3 : m ≠ MODE_EXPLAIN) :
    (step cfg env sender (Event.button payload) s).session.mode = some payload ∧
    (step cfg env2 sender2 (Event.message t) s).session = s ∧
    (step cfg env2 sender2 (Event.message t) s).out = [] := by
  refine ⟨rfl, ?_, ?_⟩ <;>
  · by_cases hs : sender2 = cfg.ownerId
    · simp [step, hs, handle_message, hm, h1, h2, h3]
    · simp [step, hs, droppedRes]

/-- Witness for C10 at the concrete unknown payload "mode_garbage". -/
theorem mode_payload_unvalidated_witness :
    (step cfg0 (envOf "x") 42 (Event.button "mode_garbage")
       ⟨some "mode_garbage", some STATE_AWAITING_PHRASE, none⟩).session.mode = some "mode_garbage" ∧
    (step cfg0 (envOf "y") 42 (Event.message "hello")
       ⟨some "mode_garbage", some STATE_AWAITING_PHRASE, none⟩).session =
      ⟨some "mode_garbage", some STATE_AWAITING_PHRASE, none⟩ ∧
    (step cfg0 (envOf "y") 42 (Event.message "hello")
       ⟨some "mode_garbage", some STATE_AWAITING_PHRASE, none⟩).out = [] :=
  mode_payload_unvalidated cfg0 (envOf "x") (envOf "y") 42 42 "mode_garbage" "hello"
    ⟨some "mode_garbage", some STATE_AWAITING_PHRASE, none⟩ "mode_garbage"
    rfl (by decide) (by decide) (by decide)

/-! ### C4 - generation failure handling per mode -/

/-- C4 (amended): a generation failure is caught within the turn and the
user is informed with a generic retry message in all three modes, but the
session is reset to defaults only in Training mode; in EnglishOnly and
Explain modes the session is left unchanged, not reset. -/
theorem generation_failure_per_mode (cfg : Config) (env : Env) (sender : Int)
    (t : String) (s : Session) (hown : sender = cfg.ownerId)
    (hgen : env.gen = Except.error ()) :
    ((s.mode.getD MODE_TRAINING = MODE_TRAINING →
        s.state.getD STATE_AWAITING_PHRASE = STATE_AWAITING_PHRASE →
        step cfg env sender (Event.message t) s = trainingErrorRes) ∧
     (s.mode = some MODE_ENGLISH_ONLY →
        step cfg env sender (Event.message t) s =
          ⟨s, [sendP (JVal.str "An error occurred. Please try again.")], [LogLvl.error]⟩) ∧
     (s.mode = some MODE_EXPLAIN →
        step cfg env sender (Event.message t) s =
          ⟨s, [sendP (JVal.str "An error occurred. Please try again.")], [LogLvl.error]⟩)) := by
  subst hown
  refine ⟨?_, ?_, ?_⟩
  · intro hm hst
    simp [step, handle_message, hm, hst, handle_phrase_and_return_russian, hgen]
  · intro hm
    simp [step, handle_message, hm, MODE_ENGLISH_ONLY, MODE_TRAINING,
      handle_english_only_generation, hgen]
  · intro hm
    simp [step, handle_message, hm, MODE_EXPLAIN, MODE_TRAINING, MODE_ENGLISH_ONLY,
      handle_explain_mode, hgen]

/-- Witness for C4's amended theorem in a concrete Explain-mode session. -/
theorem generation_failure_per_mode_witness :
    ((sessExplain.mode.getD MODE_TRAINING = MODE_TRAINING →
        sessExplain.state.getD STATE_AWAITING_PHRASE = STATE_AWAITING_PHRASE →
        step cfg0 envFail 42 (Event.message "x") sessExplain = trainingErrorRes) ∧
     (sessExplain.mode = some MODE_ENGLISH_ONLY →
        step cfg0 envFail 42 (Event.message "x") sessExplain =
          ⟨sessExplain, [sendP (JVal.str "An error occurred. Please try again.")], [LogLvl.error]⟩) ∧
     (sessExplain.mode = some MODE_EXPLAIN →
        step cfg0 envFail 42 (Event.message "x") sessExplain =
          ⟨sessExplain, [sendP (JVal.str "An error occurred. Please try again.")], [LogLvl.error]⟩)) :=
  generation_failure_per_mode cfg0 envFail 42 "x" sessExplain rfl rfl

/-- C4 counterexample: after a generation failure in Explain mode the
session still holds mode Explain, so it was not reset to the default
(empty) session as the claim requires. -/
theorem explain_failure_does_not_reset :
    (step cfg0 envFail 42 (Event.message "x") sessExplain).session = sessExplain ∧
    (step cfg0 envFail 42 (Event.message "x") sessExplain).session.mode ≠ emptySession.mode :=
  ⟨rfl, fun h => Option.noConfusion h⟩

/-! ### C6 - malformed training reply -/

/-- C6: in Training mode awaiting a phrase, a backend reply whose
normalized text is invalid JSON, or is valid JSON without the key
english, makes the turn clear chat_data entirely (the full default empty
session, no partial state) and send only the generic error message. -/
theorem malformed_training_reply_resets (cfg : Config) (env : Env) (sender : Int)
    (t reply : String) (s : Session) (hown : sender = cfg.ownerId)
    (hmode : s.mode.getD MODE_TRAINING = MODE_TRAINING)
    (hstate : s.state.getD STATE_AWAITING_PHRASE = STATE_AWAITING_PHRASE)
    (hgen : env.gen = Except.ok reply)
    (hbad : jsonLoads (pyClean reply) = none ∨
            ∃ d, jsonLoads (pyClean reply) = some d ∧ getKey d "english" = none) :
    step cfg env sender (Event.message t) s = trainingErrorRes := by
  subst hown
  rcases hbad with hb | ⟨d, hd, he⟩
  · simp [step, handle_message, hmode, hstate, handle_phrase_and_return_russian, hgen, hb]
  · simp [step, handle_message, hmode, hstate, handle_phrase_and_return_russian, hgen, hd, he]

/-- Witness for C6 at the concrete invalid reply "oops". -/
theorem malformed_training_reply_resets_witness :
    step cfg0 (envOf "oops") 42 (Event.message "x") sessTraining = trainingErrorRes :=
  malformed_training_reply_resets cfg0 (envOf "oops") 42 "x" "oops" sessTraining
    rfl rfl rfl rfl (Or.inl rfl)

/-! ### C7 - Explain-mode markup fallback -/

/-- C7: in Explain mode, when the platform rejects the MarkdownV2 markup
of the generated reply, the identical text is resent as plain text, the
follow-up prompt is still sent, the session is unchanged, and the turn is
logged only as a warning, never as an error. -/
theorem explain_markup_fallback (cfg : Config) (env : Env) (sender : Int)
    (t reply : String) (s : Session) (hown : sender = cfg.ownerId)
    (hmode : s.mode = some MODE_EXPLAIN)
    (hgen : env.gen = Except.ok reply) (hmk : env.markupOk = false) :
    step cfg env sender (Event.message t) s =
      ⟨s, [sendP (JVal.str reply),
           sendP (JVal.str "Send me another word or phrase to explain.")],
       [LogLvl.warning]⟩ := by
  subst hown
  simp [step, handle_message, hmode, MODE_EXPLAIN, MODE_TRAINING, MODE_ENGLISH_ONLY,
    handle_explain_mode, hgen, hmk]

/-- Witness for C7 at a concrete rejected reply. -/
theorem explain_markup_fallback_witness :
    step cfg0 ⟨Except.ok "a.b", false⟩ 42 (Event.message "x") sessExplain =
      ⟨sessExplain, [sendP (JVal.str "a.b"),
           sendP (JVal.str "Send me another word or phrase to explain.")],
       [LogLvl.warning]⟩ :=
  explain_markup_fallback cfg0 ⟨Except.ok "a.b", false⟩ 42 "x" "a.b" sessExplain
    rfl rfl rfl rfl

/-! ### C5 - Training-mode round trip -/

/-- A reply that is exactly the claimed JSON object with an empty English
rendition. -/
def emptyEnglishReply : String :=
  "\x7b\"phrase\":\"p\",\"russian\":\"r\",\"english\":\"\"\x7d"

/-- C5 (amended): in Training mode awaiting a phrase, if the backend
reply parses (after normalization) to a JSON object with string values P,
R and E for phrase, russian and english, and E is non-empty, then the
turn sends R (plus the reveal prompt) and moves to AwaitingReveal with E
stashed, and the next message sends E (plus the restart prompt) and
returns the state to AwaitingPhrase.  The non-emptiness of E is required:
the reveal step only sends a truthy stash. -/
theorem training_round_trip (cfg : Config) (env1 env2 : Env) (sender : Int)
    (t1 t2 reply : String) (s : Session) (d : JVal) (P R E : String)
    (hown : sender = cfg.ownerId)
    (hmode : s.mode.getD MODE_TRAINING = MODE_TRAINING)
    (hstate : s.state.getD STATE_AWAITING_PHRASE = STATE_AWAITING_PHRASE)
    (hgen : env1.gen = Except.ok reply)
    (hparse : jsonLoads (pyClean reply) = some d)
    (_hP : getKey d "phrase" = some (JVal.str P))
    (hR : getKey d "russian" = some (JVal.str R))
    (hE : getKey d "english" = some (JVal.str E))
    (hEne : E ≠ "") :
    (step cfg env1 sender (Event.message t1) s).out =
      [sendP (JVal.str R),
       sendP (JVal.str "Now, send any message to get the English version.")] ∧
    (step cfg env1 sender (Event.message t1) s).session =
      ⟨s.mode, some STATE_AWAITING_REVEAL, some (JVal.str E)⟩ ∧
    (step cfg env2 sender (Event.message t2)
        (step cfg env1 sender (Event.message t1) s).session).out =
      [sendP (JVal.str E),
       sendP (JVal.str "Let\x27s start over. Send me a new phrase.")] ∧
    (step cfg env2 sender (Event.message t2)
        (step cfg env1 sender (Event.message t1) s).session).session.state =
      some STATE_AWAITING_PHRASE := by
  subst hown
  have h1 : step cfg env1 cfg.ownerId (Event.message t1) s =
      ⟨⟨s.mode, some STATE_AWAITING_REVEAL, some (JVal.str E)⟩,
       [sendP (JVal.str R),
        sendP (JVal.str "Now, send any message to get the English version.")], []⟩ := by
    simp [step, handle_message, hmode, hstate, handle_phrase_and_return_russian,
      hgen, hparse, hE, hR]
  have hEb : E.isEmpty = false := by
    cases hb : E.isEmpty with
    | false => rfl
    | true => exact absurd ((String.isEmpty_iff E).mp hb) hEne
  have h2 : step cfg env2 cfg.ownerId (Event.message t2)
      (⟨s.mode, some STATE_AWAITING_REVEAL, some (JVal.str E)⟩ : Session) =
      ⟨⟨s.mode, some STATE_AWAITING_PHRASE, some (JVal.str E)⟩,
       [sendP (JVal.str E),
        sendP (JVal.str "Let\x27s start over. Send me a new phrase.")], []⟩ := by
    simp [step, handle_message, hmode, handle_reveal_english, pyTruthy, hEb,
      STATE_AWAITING_REVEAL, STATE_AWAITING_PHRASE]
  exact ⟨by rw [h1], by rw [h1], by rw [h1, h2], by rw [h1, h2]⟩

/-- Witness for C5's amended theorem at a concrete well-formed reply. -/
theorem training_round_trip_witness :
    (step cfg0 (envOf "\x7b\"phrase\":\"p\",\"russian\":\"r\",\"english\":\"e\"\x7d") 42
        (Event.message "m1") sessTraining).out =
      [sendP (JVal.str "r"),
       sendP (JVal.str "Now, send any message to get the English version.")] ∧
    (step cfg0 (envOf "\x7b\"phrase\":\"p\",\"russian\":\"r\",\"english\":\"e\"\x7d") 42
        (Event.message "m1") sessTraining).session =
      ⟨sessTraining.mode, some STATE_AWAITING_REVEAL, some (JVal.str "e")⟩ ∧
    (step cfg0 (envOf "next") 42 (Event.message "m2")
        (step cfg0 (envOf "\x7b\"phrase\":\"p\",\"russian\":\"r\",\"english\":\"e\"\x7d") 42
          (Event.message "m1") sessTraining).session).out =
      [sendP (JVal.str "e"),
       sendP (JVal.str "Let\x27s start over. Send me a new phrase.")] ∧
    (step cfg0 (envOf "next") 42 (Event.message "m2")
        (step cfg0 (envOf "\x7b\"phrase\":\"p\",\"russian\":\"r\",\"english\":\"e\"\x7d") 42
          (Event.message "m1") sessTraining).session).session.state =
      some STATE_AWAITING_PHRASE :=
  training_round_trip cfg0
    (envOf "\x7b\"phrase\":\"p\",\"russian\":\"r\",\"english\":\"e\"\x7d") (envOf "next")
    42 "m1" "m2" "\x7b\"phrase\":\"p\",\"russian\":\"r\",\"english\":\"e\"\x7d" sessTraining
    (JVal.obj [("phrase", JVal.str "p"), ("russian", JVal.str "r"), ("english", JVal.str "e")])
    "p" "r" "e" rfl rfl rfl rfl rfl rfl rfl rfl (by decide)

/-- C5 counterexample: with E = "" the reply is exactly the claimed JSON
object, yet the second turn sends only the restart prompt - no message
with text E is sent, because the falsy stash is skipped. -/
theorem training_round_trip_empty_english :
    jsonLoads (pyClean emptyEnglishReply) =
      some (JVal.obj [("phrase", JVal.str "p"), ("russian", JVal.str "r"),
                      ("english", JVal.str "")]) ∧
    (step cfg0 (envOf "next") 42 (Event.message "m2")
        (step cfg0 (envOf emptyEnglishReply) 42 (Event.message "m1") sessTraining).session).out =
      [sendP (JVal.str "Let\x27s start over. Send me a new phrase.")] :=
  ⟨rfl, rfl⟩

/-! ### C3 - AwaitingReveal invariant -/

theorem handle_english_only_session (env : Env) (s : Session) :
    (handle_english_only_generation env s).session = s := by
  unfold handle_english_only_generation
  cases hg : env.gen <;> simp [hg]

theorem handle_explain_session (env : Env) (s : Session) :
    (handle_explain_mode env s).session = s := by
  unfold handle_explain_mode
  cases hg : env.gen with
  | error e => simp [hg]
  | ok reply =>
    simp only [hg]
    split <;> rfl

theorem handle_phrase_inv (env : Env) (s : Session) :
    (handle_phrase_and_return_russian env s).session.state = some STATE_AWAITING_REVEAL →
    (handle_phrase_and_return_russian env s).session.english_text.isSome = true := by
  unfold handle_phrase_and_return_russian
  cases hg : env.gen with
  | error e => simp [trainingErrorRes, emptySession]
  | ok reply =>
    cases hj : jsonLoads (pyClean reply) with
    | none => simp [hj, trainingErrorRes, emptySession]
    | some d =>
      cases he : getKey d "english" with
      | none => simp [hj, he, trainingErrorRes, emptySession]
      | some e =>
        cases hr : getKey d "russian" with
        | none => simp [hj, he, hr, trainingErrorRes, emptySession]
        | some r => simp [hj, he, hr]

theorem handle_message_inv (env : Env) (s : Session)
    (ih : s.state = some STATE_AWAITING_REVEAL → s.english_text.isSome = true) :
    (handle_message env s).session.state = some STATE_AWAITING_REVEAL →
    (handle_message env s).session.english_text.isSome = true := by
  simp only [handle_message]
  split
  · split
    · exact handle_phrase_inv env s
    · split
      · intro h2
        simp [handle_reveal_english, STATE_AWAITING_PHRASE, STATE_AWAITING_REVEAL] at h2
      · exact ih
  · split
    · rw [handle_english_only_session]
      exact ih
    · split
      · rw [handle_explain_session]
        exact ih
      · exact ih

/-- C3 (amended): in every reachable session, state == AwaitingReveal
implies the english_text stash is set.  Non-emptiness does NOT hold: the
stored value is whatever the backend returned under the english key and
can be the empty string (see the counterexample). -/
theorem awaiting_reveal_stash_set (s : Session) (hr : Reachable s) :
    s.state = some STATE_AWAITING_REVEAL → s.english_text.isSome = true := by
  induction hr with
  | init => intro h2; simp [emptySession] at h2
  | step cfg env sender ev s0 hR ih =>
    cases ev with
    | start =>
      simp only [step]
      split
      · exact ih
      · intro h2
        simp [start, STATE_AWAITING_PHRASE, STATE_AWAITING_REVEAL] at h2
    | modeCmd =>
      simp only [step]
      split <;> exact ih
    | button p =>
      intro h2
      simp [step, button_callback, STATE_AWAITING_PHRASE, STATE_AWAITING_REVEAL] at h2
    | message t =>
      simp only [step]
      split
      · exact ih
      · exact handle_message_inv env s0 ih

/-- A reachable Training-mode session awaiting a reveal whose stash is
the empty string: /start, then a phrase answered by a reply whose
english value is "". -/
def demoSession : Session :=
  ⟨some MODE_TRAINING, some STATE_AWAITING_REVEAL, some (JVal.str "")⟩

theorem demoSession_reachable : Reachable demoSession := by
  have h0 : Reachable (step cfg0 (envOf "x") 42 Event.start emptySession).session :=
    Reachable.step _ _ _ _ _ Reachable.init
  have h1 : Reachable (step cfg0 (envOf emptyEnglishReply) 42 (Event.message "m")
      (step cfg0 (envOf "x") 42 Event.start emptySession).session).session :=
    Reachable.step _ _ _ _ _ h0
  exact h1

/-- C3 counterexample: a reachable session in state AwaitingReveal whose
stashed English text is the empty string - set, but empty (falsy in
Python), refuting the non-emptiness part of the claim. -/
theorem awaiting_reveal_empty_stash :
    Reachable demoSession ∧ demoSession.state = some STATE_AWAITING_REVEAL ∧
    demoSession.english_text = some (JVal.str "") ∧ pyTruthy (JVal.str "") = false :=
  ⟨demoSession_reachable, rfl, rfl, rfl⟩

/-- Witness for C3's amended theorem at a concrete reachable session. -/
theorem awaiting_reveal_stash_set_witness : demoSession.english_text.isSome = true :=
  awaiting_reveal_stash_set demoSession demoSession_reachable rfl

/-! ### C9 - fence normalization -/

/-- C9: a backend reply that is a valid JSON object text (beginning with
the opening brace and ending with the closing brace), optionally
surrounded by triple-backtick fence tokens (the opening one optionally
carrying the json tag) and whitespace on either side, is normalized by
the strip pipeline to exactly the object text, so parsing the cleaned
reply succeeds and yields the same value as parsing the object text
directly. -/
theorem fence_normalization (ws1 ws2 ws3 ws4 mid f1 f2 : List Char) (v : JVal)
    (h1 : ∀ c ∈ ws1, pyWS c = true) (h2 : ∀ c ∈ ws2, pyWS c = true)
    (h3 : ∀ c ∈ ws3, pyWS c = true) (h4 : ∀ c ∈ ws4, pyWS c = true)
    (hf1 : f1 = [] ∨ f1 = "\x60\x60\x60".data ∨ f1 = "\x60\x60\x60json".data)
    (hf2 : f2 = [] ∨ f2 = "\x60\x60\x60".data)
    (hJ : jsonLoads (String.mk ('{' :: (mid ++ ['}']))) = some v) :
    pyClean (String.mk ((ws1 ++ f1 ++ ws3) ++ '{' :: (mid ++ '}' :: (ws4 ++ f2 ++ ws2)))) =
      String.mk ('{' :: (mid ++ ['}'])) ∧
    jsonLoads (pyClean (String.mk
        ((ws1 ++ f1 ++ ws3) ++ '{' :: (mid ++ '}' :: (ws4 ++ f2 ++ ws2))))) = some v := by
  have hL : pyCleanList ((ws1 ++ f1 ++ ws3) ++ '{' :: (mid ++ '}' :: (ws4 ++ f2 ++ ws2))) =
      '{' :: (mid ++ ['}']) :=
    pyCleanList_fenced ws1 ws2 ws3 ws4 mid f1 f2 h1 h2 h3 h4 hf1 hf2
  constructor
  · exact congrArg String.mk hL
  · show jsonLoadsList (pyCleanList
      ((ws1 ++ f1 ++ ws3) ++ '{' :: (mid ++ '}' :: (ws4 ++ f2 ++ ws2)))) = some v
    rw [hL]
    exact hJ

/-- Witness for C9 at a concrete fenced reply. -/
theorem fence_normalization_witness :
    pyClean (String.mk ((([] : List Char) ++ "\x60\x60\x60json".data ++ ['\n']) ++
        '{' :: ("\"a\":1".data ++ '}' :: (['\n'] ++ "\x60\x60\x60".data ++ ([] : List Char))))) =
      String.mk ('{' :: ("\"a\":1".data ++ ['}'])) ∧
    jsonLoads (pyClean (String.mk ((([] : List Char) ++ "\x60\x60\x60json".data ++ ['\n']) ++
        '{' :: ("\"a\":1".data ++ '}' :: (['\n'] ++ "\x60\x60\x60".data ++ ([] : List Char)))))) =
      some (JVal.obj [("a", JVal.num "1")]) :=
  fence_normalization [] [] ['\n'] ['\n'] "\"a\":1".data
    "\x60\x60\x60json".data "\x60\x60\x60".data (JVal.obj [("a", JVal.num "1")])
    (by simp) (by simp) (by decide) (by decide)
    (Or.inr (Or.inr rfl)) (Or.inr rfl) rfl
